import Mathlib

/-!
Shallow embedding of `workspace/workspace_impl.go` from
mazrean/separated-webshell: the sandbox lifecycle coordinator and
session stream multiplexer (container registry, `Create`, `Connect`,
the stdcopy demultiplexing frame format, and the acquire/release
interleaving semantics of the session slot channel).
-/

namespace Webshell

/-- A user name (`domain.UserName`), an opaque string. -/
abbrev UserName := String

/-- A terminal window size (`domain.Window`). -/
structure Window where
  Height : Nat
  Width : Nat
deriving DecidableEq

/-- `containerInfo` (workspace_impl.go:41-44): the per-user record stored in
`containerMap`.  The buffered channel `manageChan` (capacity 20) is modelled
by its current length `manageLen`. -/
structure containerInfo where
  id : String
  manageLen : Nat
deriving DecidableEq

/-- A value stored in `containerMap` (a `sync.Map`, so dynamically typed
`interface{}` values): either a `*containerInfo` or a value of some other
type (the case the type assertion at workspace_impl.go:116 guards). -/
inductive mapValue where
  | info (c : containerInfo)
  | other
deriving DecidableEq

/-- `containerName` (workspace_impl.go:46-48): `fmt.Sprintf("user-%s", userName)`. -/
def containerName (userName : UserName) : String :=
  "user-" ++ userName

/-- Lookup in an association list, modelling `sync.Map.Load`. -/
def lookupReg {α : Type} : List (String × α) → String → Option α
  | [], _ => none
  | (k, v) :: rest, u => if k = u then some v else lookupReg rest u

/-- Unconditional store in an association list, modelling `sync.Map.Store`:
the first binding for the key is replaced, or a binding is appended. -/
def storeReg {α : Type} : List (String × α) → String → α → List (String × α)
  | [], u, v => [(u, v)]
  | (k, w) :: rest, u, v => if k = u then (u, v) :: rest else (k, w) :: storeReg rest u v

/-- Number of bindings an association list holds for a key. -/
def countKey {α : Type} (l : List (String × α)) (u : String) : Nat :=
  (l.filter fun p => p.1 = u).length

theorem lookupReg_storeReg_self {α : Type} (l : List (String × α)) (u : String) (v : α) :
    lookupReg (storeReg l u v) u = some v := by
  induction l with
  | nil => simp [storeReg, lookupReg]
  | cons p rest ih =>
    by_cases h : p.1 = u
    · simp [storeReg, h, lookupReg]
    · simp [storeReg, h, lookupReg, ih]

theorem lookupReg_mem {α : Type} (l : List (String × α)) (u : String) (v : α)
    (h : lookupReg l u = some v) : (u, v) ∈ l := by
  induction l with
  | nil => simp [lookupReg] at h
  | cons p rest ih =>
    by_cases hk : p.1 = u
    · simp only [lookupReg, hk, if_pos] at h
      cases h
      have hp : (u, p.2) = p := by
        obtain ⟨a, b⟩ := p
        simp only at hk
        simp [hk]
      exact List.mem_cons.mpr (Or.inl hp)
    · simp only [lookupReg, hk, if_neg, not_false_iff] at h
      exact List.mem_cons_of_mem _ (ih h)

theorem countKey_storeReg_absent {α : Type} (l : List (String × α)) (u : String) (v : α)
    (h : countKey l u = 0) : countKey (storeReg l u v) u = 1 := by
  induction l with
  | nil => simp [storeReg, countKey]
  | cons p rest ih =>
    by_cases hk : p.1 = u
    · exfalso
      simp [countKey, List.filter, hk] at h
    · simp only [countKey, List.filter, hk, decide_eq_true_eq] at h
      simp only [storeReg, hk, if_neg, not_false_iff]
      simpa [countKey, List.filter, hk] using ih (by simpa [countKey, List.filter] using h)

theorem countKey_storeReg_present {α : Type} (l : List (String × α)) (u : String) (v : α)
    (h : 0 < countKey l u) : countKey (storeReg l u v) u = countKey l u := by
  induction l with
  | nil => simp [countKey] at h
  | cons p rest ih =>
    by_cases hk : p.1 = u
    · simp [storeReg, hk, countKey, List.filter]
    · simp only [storeReg, hk, if_neg, not_false_iff]
      have h' : 0 < countKey rest u := by
        simpa [countKey, List.filter, hk] using h
      simpa [countKey, List.filter, hk] using ih h'

/-- The state of the external Docker runtime, as far as `Create` observes it:
the containers that exist (name ↦ id), a fresh-id counter, and error
injection flags for the create and inspect calls. -/
structure runtimeState where
  containers : List (String × String)
  nextId : Nat
  createErr : Bool
  inspectErr : Bool
deriving DecidableEq

/-- Result of `cli.ContainerCreate`: a fresh container id, a conflict
(`errdefs.IsConflict`, the name already exists), or another error. -/
inductive createRes where
  | created (id : String)
  | conflict
  | err
deriving DecidableEq

/-- `cli.ContainerCreate(ctx, config, ..., ctnName)`: fails if the error flag
is set; conflicts if the name already exists; otherwise allocates a fresh id
and records the container under the name. -/
def containerCreate (rt : runtimeState) (name : String) : createRes × runtimeState :=
  if rt.createErr then (.err, rt)
  else
    match lookupReg rt.containers name with
    | some _ => (.conflict, rt)
    | none =>
      let id := "ctr" ++ toString rt.nextId
      (.created id,
       { rt with containers := storeReg rt.containers name id, nextId := rt.nextId + 1 })

/-- `cli.ContainerInspect(ctx, ctnName)`: returns the id of the named
container, or fails (error flag, or no such container). -/
def containerInspect (rt : runtimeState) (name : String) : Option String :=
  if rt.inspectErr then none else lookupReg rt.containers name

/-- Errors `Create` can return. -/
inductive createError where
  | createContainer
  | inspectContainer
deriving DecidableEq

/-- `Workspace.Create` (workspace_impl.go:73-109): create the container named
`user-<userName>`; on conflict, inspect the existing container and register
its id; on success register the fresh id; a fresh record always starts with
an empty capacity-20 `manageChan`.  Returns the result together with the
updated registry (`containerMap`) and runtime state. -/
def Create (reg : List (String × mapValue)) (rt : runtimeState) (userName : UserName) :
    Except createError Unit × List (String × mapValue) × runtimeState :=
  match containerCreate rt (containerName userName) with
  | (.conflict, rt') =>
    match containerInspect rt' (containerName userName) with
    | none => (.error .inspectContainer, reg, rt')
    | some id => (.ok (), storeReg reg userName (.info ⟨id, 0⟩), rt')
  | (.err, rt') => (.error .createContainer, reg, rt')
  | (.created id, rt') => (.ok (), storeReg reg userName (.info ⟨id, 0⟩), rt')

/-- An initial runtime state: no containers, no injected errors. -/
def rt0 : runtimeState := ⟨[], 0, false, false⟩

/-- A registry in which user `alice` has a record with 3 active sessions. -/
def regActive : List (String × mapValue) := [("alice", .info ⟨"ctr0", 3⟩)]

/-- A runtime state in which `alice`'s container `ctr0` already exists. -/
def rtExist : runtimeState := ⟨[("user-alice", "ctr0")], 1, false, false⟩

/-- C4: `Create` is idempotent: the first call registers a fresh container id;
a second call for the same user hits the name conflict, inspects the existing
container and re-registers its id, returning success; the registry holds
exactly one record for the user, pointing at the pre-existing id.  On any
other runtime error, `Create` returns the error and the registry is
unchanged (the user has no usable sandbox). -/
theorem C4_create_idempotent (reg : List (String × mapValue)) (rt : runtimeState) (u : UserName)
    (hc : rt.createErr = false) (hi : rt.inspectErr = false)
    (habs : lookupReg rt.containers (containerName u) = none)
    (hreg : countKey reg u = 0) :
    ((Create reg rt u).1 = .ok () ∧
     (Create (Create reg rt u).2.1 (Create reg rt u).2.2 u).1 = .ok () ∧
     countKey (Create (Create reg rt u).2.1 (Create reg rt u).2.2 u).2.1 u = 1 ∧
     (∃ id, lookupReg (Create reg rt u).2.2.containers (containerName u) = some id ∧
        lookupReg (Create reg rt u).2.1 u = some (.info ⟨id, 0⟩) ∧
        lookupReg (Create (Create reg rt u).2.1 (Create reg rt u).2.2 u).2.1 u
          = some (.info ⟨id, 0⟩))) ∧
    (∀ (reg' : List (String × mapValue)) (rt' : runtimeState) (u' : UserName),
       rt'.createErr = true →
       (Create reg' rt' u').1 = .error .createContainer ∧ (Create reg' rt' u').2.1 = reg') := by
  have e1 : Create reg rt u =
      (Except.ok (), storeReg reg u (mapValue.info ⟨"ctr" ++ toString rt.nextId, 0⟩),
       { rt with
          containers := storeReg rt.containers (containerName u) ("ctr" ++ toString rt.nextId),
          nextId := rt.nextId + 1 }) := by
    simp [Create, containerCreate, hc, habs]
  have e2 : Create (Create reg rt u).2.1 (Create reg rt u).2.2 u =
      (Except.ok (),
       storeReg (storeReg reg u (mapValue.info ⟨"ctr" ++ toString rt.nextId, 0⟩)) u
         (mapValue.info ⟨"ctr" ++ toString rt.nextId, 0⟩),
       (Create reg rt u).2.2) := by
    rw [e1]
    simp [Create, containerCreate, containerInspect, hc, hi, lookupReg_storeReg_self]
  refine ⟨⟨by rw [e1], by rw [e2], ?_, ?_⟩, ?_⟩
  · rw [e2]
    simp only
    rw [countKey_storeReg_present]
    · exact countKey_storeReg_absent _ _ _ hreg
    · rw [countKey_storeReg_absent _ _ _ hreg]
      omega
  · refine ⟨"ctr" ++ toString rt.nextId, ?_, ?_, ?_⟩
    · rw [e1]
      simp [lookupReg_storeReg_self]
    · rw [e1]
      simp [lookupReg_storeReg_self]
    · rw [e2]
      simp [lookupReg_storeReg_self]
  · intro reg' rt' u' hce
    constructor <;> simp [Create, containerCreate, hce]

/-- C4 witness: two `Create` calls for `alice` against a fresh runtime leave
exactly one registered record. -/
theorem C4_create_idempotent_witness :
    countKey (Create (Create [] rt0 "alice").2.1 (Create [] rt0 "alice").2.2 "alice").2.1
      "alice" = 1 := by
  have h := C4_create_idempotent [] rt0 "alice" rfl rfl rfl rfl
  exact h.1.2.2.1

/-- C5 counterexample: `alice` has a registered record with id `ctr0` and 3
active session slots; a second `Create` (conflict path) re-Stores the record,
replacing it with a fresh one whose slot state is reset to 0 — the existing
record is not left unchanged as the claim states. -/
theorem C5_register_overwrites_cex :
    lookupReg (Create regActive rtExist "alice").2.1 "alice"
        = some (mapValue.info ⟨"ctr0", 0⟩) ∧
    lookupReg (Create regActive rtExist "alice").2.1 "alice"
        ≠ some (mapValue.info ⟨"ctr0", 3⟩) := by
  constructor <;> decide

/-- C5 amended: the registry's Register operation (`sync.Map.Store`) stores
unconditionally: when a user already has a registered record, a subsequent
`Create` that observes a conflict replaces the record with a fresh one
pointing at the inspected id and with its active-session slot state reset to
empty. -/
theorem C5_register_overwrites (reg : List (String × mapValue)) (rt : runtimeState)
    (u : UserName) (c : containerInfo) (id : String)
    (hc : rt.createErr = false) (hi : rt.inspectErr = false)
    (hex : lookupReg rt.containers (containerName u) = some id)
    (_hold : lookupReg reg u = some (mapValue.info c)) :
    (Create reg rt u).1 = .ok () ∧
    lookupReg (Create reg rt u).2.1 u = some (mapValue.info ⟨id, 0⟩) := by
  constructor <;>
    simp [Create, containerCreate, containerInspect, hc, hi, hex, lookupReg_storeReg_self]

/-- C5 amended witness: the concrete overwrite for `alice`. -/
theorem C5_register_overwrites_witness :
    lookupReg (Create regActive rtExist "alice").2.1 "alice"
      = some (mapValue.info ⟨"ctr0", 0⟩) := by
  have h := C5_register_overwrites regActive rtExist "alice" ⟨"ctr0", 3⟩ "ctr0"
    rfl rfl (by decide) (by decide)
  exact h.2

/-- Result of `cli.ContainerStart`: success, a conflict (`errdefs.IsConflict`,
already running — treated as success at workspace_impl.go:126), or another
error. -/
inductive startRes where
  | ok
  | conflict
  | err
deriving DecidableEq

/-- Runtime calls and stream actions `Connect` performs, recorded as a trace. -/
inductive Op where
  | start (id : String)
  | stop (id : String)
  | execCreate (id : String)
  | execAttach (execId : String)
  | copyStdin
  | closeWrite
  | copyOutputTty
  | copyOutputDemux
deriving DecidableEq

/-- Errors `Connect` can return (workspace_impl.go:114-186). -/
inductive connError where
  | loadContainerInfo
  | parseContainerInfo
  | tooManyShell
  | startContainer
  | execCreate
  | attach
  | stdout
deriving DecidableEq

/-- Outcome of a `Connect` call: a normal return (`ok` or an error), or the
whole process terminating (`log.Fatalf` at workspace_impl.go:136 never
returns). -/
inductive connOutcome where
  | ok
  | err (e : connError)
  | fatal
deriving DecidableEq

/-- Oracle fixing the outcomes of the external runtime and I/O operations a
single `Connect` call performs. -/
structure connOracle where
  startRes : startRes
  execId : String
  execCreateOk : Bool
  attachOk : Bool
  outputCopyOk : Bool
  stdinCopyOk : Bool
  stopOk : Bool
  resizeOk : Window → Bool

/-- Result of a `Connect` call: its outcome, the final registry, the trace of
runtime calls made by the main task, the resize requests issued by the
resize-forwarding goroutine (workspace_impl.go:147-158), and the actions of
the stdin-copy goroutine (workspace_impl.go:179-182). -/
structure connResult where
  outcome : connOutcome
  state : List (String × mapValue)
  ops : List Op
  resizeReqs : List Window
  stdinOps : List Op
deriving DecidableEq

/-- The resize-forwarding goroutine (workspace_impl.go:147-158): consume the
window channel, issuing one `ContainerExecResize` per event, in order, until
the channel closes or a resize fails (`break` after logging). Returns the
requests issued. -/
def resizeTask (o : Window → Bool) : List Window → List Window
  | [] => []
  | w :: rest => if o w then w :: resizeTask o rest else [w]

/-- The deferred release (workspace_impl.go:130-139): receive from
`manageChan` (length `c1.manageLen` at that point), and if the length is now
zero, call `ContainerStop`; a stop error hits `log.Fatalf` (process fatal). -/
def releaseDefer (o : connOracle) (reg : List (String × mapValue)) (u : UserName)
    (c1 : containerInfo) : List (String × mapValue) × List Op × Bool :=
  let n := c1.manageLen - 1
  let reg' := storeReg reg u (.info ⟨c1.id, n⟩)
  if n = 0 then (reg', [.stop c1.id], !o.stopOk) else (reg', [], false)

/-- Assemble a `Connect` return that passes through the deferred release:
a fatal stop turns the whole call into a process exit. -/
def finishConn (body : connOutcome) (o : connOracle) (reg : List (String × mapValue))
    (u : UserName) (c1 : containerInfo) (ops : List Op) (rz : List Window)
    (sio : List Op) : connResult :=
  let r := releaseDefer o reg u c1
  ⟨if r.2.2 then .fatal else body, r.1, ops ++ r.2.1, rz, sio⟩

/-- `Workspace.Connect` (workspace_impl.go:111-190): load the user's record
(type-asserting it); reject if `len(manageChan) >= 20`; start the container
(a conflict is success); acquire a slot; create and attach an exec; if
interactive, run the resize goroutine; run the stdin-copy goroutine (which
half-closes the stream's write side when done); wait only on the output-copy
goroutine, whose error determines the result; finally run the deferred
release. -/
def Connect (reg : List (String × mapValue)) (u : UserName) (isTty : Bool)
    (winCh : List Window) (o : connOracle) : connResult :=
  match lookupReg reg u with
  | none => ⟨.err .loadContainerInfo, reg, [], [], []⟩
  | some .other => ⟨.err .parseContainerInfo, reg, [], [], []⟩
  | some (.info c) =>
    if 20 ≤ c.manageLen then ⟨.err .tooManyShell, reg, [], [], []⟩
    else
      match o.startRes with
      | .err => ⟨.err .startContainer, reg, [.start c.id], [], []⟩
      | _ =>
        let c1 : containerInfo := ⟨c.id, c.manageLen + 1⟩
        let reg1 := storeReg reg u (.info c1)
        if o.execCreateOk = false then
          finishConn (.err .execCreate) o reg1 u c1 [.start c.id, .execCreate c.id] [] []
        else
          let rz := if isTty then resizeTask o.resizeOk winCh else []
          if o.attachOk = false then
            finishConn (.err .attach) o reg1 u c1
              [.start c.id, .execCreate c.id, .execAttach o.execId] rz []
          else
            let outOp := if isTty then Op.copyOutputTty else Op.copyOutputDemux
            let body := if o.outputCopyOk then connOutcome.ok else .err .stdout
            finishConn body o reg1 u c1
              [.start c.id, .execCreate c.id, .execAttach o.execId, outOp] rz
              [.copyStdin, .closeWrite]

/-- A registry is well formed when every stored value is a `containerInfo`
record (which is all `Create` ever stores). -/
def wellFormedReg (reg : List (String × mapValue)) : Prop :=
  ∀ p ∈ reg, ∃ c, p.2 = mapValue.info c

/-- The oracle of a fully successful session. -/
def oracleHappy : connOracle :=
  ⟨.ok, "exec1", true, true, true, true, true, fun _ => true⟩

/-- The oracle of a session whose final `ContainerStop` fails. -/
def oracleStopFail : connOracle :=
  ⟨.ok, "exec1", true, true, true, true, false, fun _ => true⟩

theorem resizeTask_all (f : Window → Bool) (wins : List Window)
    (hall : ∀ x ∈ wins, f x = true) : resizeTask f wins = wins := by
  induction wins with
  | nil => rfl
  | cons w rest ih =>
    have hw : f w = true := hall w (List.mem_cons_self w rest)
    simp [resizeTask, hw, ih fun x hx => hall x (List.mem_cons_of_mem w hx)]

theorem resizeTask_fail (f : Window → Bool) (pre post : List Window) (w : Window)
    (hpre : ∀ x ∈ pre, f x = true) (hw : f w = false) :
    resizeTask f (pre ++ w :: post) = pre ++ [w] := by
  induction pre with
  | nil => simp [resizeTask, hw]
  | cons p rest ih =>
    have hp : f p = true := hpre p (List.mem_cons_self p rest)
    simp [resizeTask, hp, ih fun x hx => hpre x (List.mem_cons_of_mem p hx)]

theorem releaseDefer_state (o : connOracle) (reg : List (String × mapValue)) (u : UserName)
    (c1 : containerInfo) :
    (releaseDefer o reg u c1).1 = storeReg reg u (.info ⟨c1.id, c1.manageLen - 1⟩) := by
  unfold releaseDefer
  dsimp only
  split <;> rfl

theorem releaseDefer_fatal (o : connOracle) (reg : List (String × mapValue)) (u : UserName)
    (c1 : containerInfo) :
    (releaseDefer o reg u c1).2.2 = (decide (c1.manageLen - 1 = 0) && !o.stopOk) := by
  unfold releaseDefer
  dsimp only
  split <;> simp_all

theorem finishConn_state (body : connOutcome) (o : connOracle)
    (reg : List (String × mapValue)) (u : UserName) (c1 : containerInfo)
    (ops : List Op) (rz : List Window) (sio : List Op) :
    (finishConn body o reg u c1 ops rz sio).state = (releaseDefer o reg u c1).1 := rfl

theorem finishConn_outcome_eq (body : connOutcome) (o : connOracle)
    (reg : List (String × mapValue)) (u : UserName) (c1 : containerInfo)
    (ops : List Op) (rz : List Window) (sio : List Op) :
    (finishConn body o reg u c1 ops rz sio).outcome
      = if (releaseDefer o reg u c1).2.2 then .fatal else body := rfl

theorem finishConn_stdinOps (body : connOutcome) (o : connOracle)
    (reg : List (String × mapValue)) (u : UserName) (c1 : containerInfo)
    (ops : List Op) (rz : List Window) (sio : List Op) :
    (finishConn body o reg u c1 ops rz sio).stdinOps = sio := rfl

theorem finishConn_resizeReqs (body : connOutcome) (o : connOracle)
    (reg : List (String × mapValue)) (u : UserName) (c1 : containerInfo)
    (ops : List Op) (rz : List Window) (sio : List Op) :
    (finishConn body o reg u c1 ops rz sio).resizeReqs = rz := rfl

theorem finishConn_outcome (body : connOutcome) (o : connOracle)
    (reg : List (String × mapValue)) (u : UserName) (c1 : containerInfo)
    (ops : List Op) (rz : List Window) (sio : List Op) :
    (finishConn body o reg u c1 ops rz sio).outcome = body ∨
    (finishConn body o reg u c1 ops rz sio).outcome = .fatal := by
  rw [finishConn_outcome_eq]
  split
  · right
    rfl
  · left
    rfl

/-- Every run of `Connect` that survives the lookup, the capacity check and
the container start ends in `finishConn` on the slot-incremented record, with
a body outcome from the exec-create / attach / output-copy stages. -/
theorem Connect_eq_finishConn (reg : List (String × mapValue)) (u : UserName) (isTty : Bool)
    (winCh : List Window) (o : connOracle) (c : containerInfo)
    (h : lookupReg reg u = some (.info c)) (h20 : ¬ 20 ≤ c.manageLen)
    (hs : o.startRes ≠ .err) :
    ∃ body ops rz sio,
      (body = .err .execCreate ∨ body = .err .attach ∨ body = .ok ∨ body = .err .stdout) ∧
      Connect reg u isTty winCh o =
        finishConn body o (storeReg reg u (.info ⟨c.id, c.manageLen + 1⟩)) u
          ⟨c.id, c.manageLen + 1⟩ ops rz sio := by
  unfold Connect
  rw [h]
  cases hsr : o.startRes
  case err => exact absurd hsr hs
  all_goals (
    simp only [h20, if_false]
    by_cases hec : o.execCreateOk = false
    · exact ⟨.err .execCreate, [.start c.id, .execCreate c.id], [], [],
        Or.inl rfl, by simp [hec]⟩
    · by_cases hat : o.attachOk = false
      · exact ⟨.err .attach, [.start c.id, .execCreate c.id, .execAttach o.execId],
          if isTty then resizeTask o.resizeOk winCh else [], [],
          Or.inr (Or.inl rfl), by simp [hec, hat]⟩
      · by_cases hoc : o.outputCopyOk = true
        · exact ⟨.ok,
            [.start c.id, .execCreate c.id, .execAttach o.execId,
             if isTty then Op.copyOutputTty else Op.copyOutputDemux],
            if isTty then resizeTask o.resizeOk winCh else [], [.copyStdin, .closeWrite],
            Or.inr (Or.inr (Or.inl rfl)), by simp [hec, hat, hoc]⟩
        · exact ⟨.err .stdout,
            [.start c.id, .execCreate c.id, .execAttach o.execId,
             if isTty then Op.copyOutputTty else Op.copyOutputDemux],
            if isTty then resizeTask o.resizeOk winCh else [], [.copyStdin, .closeWrite],
            Or.inr (Or.inr (Or.inr rfl)), by simp [hec, hat, hoc]⟩
  )

theorem Connect_state_record (reg : List (String × mapValue)) (u : UserName) (isTty : Bool)
    (winCh : List Window) (o : connOracle) (c : containerInfo)
    (h : lookupReg reg u = some (.info c)) :
    lookupReg (Connect reg u isTty winCh o).state u = some (.info c) := by
  by_cases h20 : 20 ≤ c.manageLen
  · unfold Connect
    rw [h]
    simp [h20, h]
  · by_cases hse : o.startRes = .err
    · unfold Connect
      rw [h]
      simp [h20, hse, h]
    · obtain ⟨body, ops, rz, sio, _, heq⟩ :=
        Connect_eq_finishConn reg u isTty winCh o c h h20 hse
      rw [heq, finishConn_state, releaseDefer_state]
      simp [lookupReg_storeReg_self]

theorem finishConn_oracle_congr (body : connOutcome) (o o' : connOracle)
    (reg : List (String × mapValue)) (u : UserName) (c1 : containerInfo)
    (ops : List Op) (rz : List Window) (sio : List Op) (hst : o.stopOk = o'.stopOk) :
    finishConn body o reg u c1 ops rz sio = finishConn body o' reg u c1 ops rz sio := by
  unfold finishConn releaseDefer
  rw [hst]

theorem finishConn_startRes (body : connOutcome) (o : connOracle) (x : startRes)
    (reg : List (String × mapValue)) (u : UserName) (c1 : containerInfo)
    (ops : List Op) (rz : List Window) (sio : List Op) :
    finishConn body { o with startRes := x } reg u c1 ops rz sio
      = finishConn body o reg u c1 ops rz sio := rfl

theorem finishConn_stdinCopyOk (body : connOutcome) (o : connOracle) (b : Bool)
    (reg : List (String × mapValue)) (u : UserName) (c1 : containerInfo)
    (ops : List Op) (rz : List Window) (sio : List Op) :
    finishConn body { o with stdinCopyOk := b } reg u c1 ops rz sio
      = finishConn body o reg u c1 ops rz sio := rfl

theorem finishConn_resizeOk (body : connOutcome) (o : connOracle) (g : Window → Bool)
    (reg : List (String × mapValue)) (u : UserName) (c1 : containerInfo)
    (ops : List Op) (rz : List Window) (sio : List Op) :
    finishConn body { o with resizeOk := g } reg u c1 ops rz sio
      = finishConn body o reg u c1 ops rz sio := rfl

theorem Connect_info_outcome_ne (reg : List (String × mapValue)) (u : UserName)
    (isTty : Bool) (winCh : List Window) (o : connOracle) (c : containerInfo)
    (h : lookupReg reg u = some (.info c)) (e : connError)
    (hne : e ≠ .tooManyShell ∧ e ≠ .startContainer ∧ e ≠ .execCreate ∧
           e ≠ .attach ∧ e ≠ .stdout) :
    (Connect reg u isTty winCh o).outcome ≠ .err e := by
  by_cases h20 : 20 ≤ c.manageLen
  · unfold Connect
    rw [h]
    intro hcontra
    simp [h20] at hcontra
    exact hne.1 hcontra.symm
  · by_cases hse : o.startRes = .err
    · unfold Connect
      rw [h]
      intro hcontra
      simp [h20, hse] at hcontra
      exact hne.2.1 hcontra.symm
    · obtain ⟨body, ops, rz, sio, hbody, heq⟩ :=
        Connect_eq_finishConn reg u isTty winCh o c h h20 hse
      rw [heq]
      rcases finishConn_outcome body o _ u _ ops rz sio with ho | ho <;> rw [ho]
      · rcases hbody with hb | hb | hb | hb <;> subst hb <;> intro hcontra
        · injection hcontra with hh
          exact hne.2.2.1 hh.symm
        · injection hcontra with hh
          exact hne.2.2.2.1 hh.symm
        · exact connOutcome.noConfusion hcontra
        · injection hcontra with hh
          exact hne.2.2.2.2 hh.symm
      · intro hcontra
        exact connOutcome.noConfusion hcontra

theorem storeReg_wf (reg : List (String × mapValue)) (u : UserName) (c : containerInfo)
    (hwf : wellFormedReg reg) : wellFormedReg (storeReg reg u (.info c)) := by
  induction reg with
  | nil =>
    intro p hp
    simp [storeReg] at hp
    exact ⟨c, by rw [hp]⟩
  | cons q rest ih =>
    intro p hp
    by_cases hk : q.1 = u
    · simp only [storeReg, hk, if_pos] at hp
      rcases List.mem_cons.mp hp with hp1 | hp2
      · exact ⟨c, by rw [hp1]⟩
      · exact hwf p (List.mem_cons_of_mem q hp2)
    · simp only [storeReg, hk, if_neg, not_false_iff] at hp
      rcases List.mem_cons.mp hp with hp1 | hp2
      · exact hwf p (by rw [hp1]; exact List.mem_cons_self q rest)
      · exact ih (fun r hr => hwf r (List.mem_cons_of_mem q hr)) p hp2

theorem Create_wf (reg : List (String × mapValue)) (rt : runtimeState) (u' : UserName)
    (hwf : wellFormedReg reg) : wellFormedReg (Create reg rt u').2.1 := by
  unfold Create
  rcases hcr : containerCreate rt (containerName u') with ⟨res, rt'⟩
  cases res with
  | created id =>
    exact storeReg_wf reg u' ⟨id, 0⟩ hwf
  | conflict =>
    dsimp only
    cases hin : containerInspect rt' (containerName u') with
    | none => exact hwf
    | some id => exact storeReg_wf reg u' ⟨id, 0⟩ hwf
  | err => exact hwf

/-- C2: when the deferred release drains the last session slot and the
`ContainerStop` call fails, the code hits `log.Fatalf`
(workspace_impl.go:136): `Connect` never returns an error to its caller, the
whole coordinating process terminates instead — contradicting the claim that
a stop failure is a recoverable, reported error. -/
theorem C2_stop_failure_fatal :
    (Connect [("alice", .info ⟨"S1", 0⟩)] "alice" false [] oracleStopFail).outcome
      = connOutcome.fatal := by decide

/-- C3: a `Connect` for a user whose record already holds 20 active sessions
is rejected immediately with the capacity error, leaves the registry (hence
the active count of 20) untouched, and issues no runtime operation at all;
moreover any `Connect` leaves the user's stored record — in particular its
session count — exactly as it found it, so the count never exceeds 20. -/
theorem C3_capacity_reject (reg : List (String × mapValue)) (u : UserName)
    (c : containerInfo) (isTty : Bool) (winCh : List Window) (o : connOracle)
    (h : lookupReg reg u = some (.info c)) :
    (c.manageLen = 20 →
      Connect reg u isTty winCh o = ⟨.err .tooManyShell, reg, [], [], []⟩) ∧
    (∀ v, lookupReg (Connect reg u isTty winCh o).state u = some v → v = .info c) := by
  constructor
  · intro h20
    unfold Connect
    rw [h]
    simp [h20]
  · intro v hv
    rw [Connect_state_record reg u isTty winCh o c h] at hv
    exact (Option.some.inj hv).symm

/-- C3 witness: the 21st `Connect` for `alice` at a count of 20. -/
theorem C3_capacity_reject_witness :
    Connect [("alice", .info ⟨"S1", 20⟩)] "alice" true [] oracleHappy
      = ⟨.err .tooManyShell, [("alice", .info ⟨"S1", 20⟩)], [], [], []⟩ :=
  (C3_capacity_reject [("alice", .info ⟨"S1", 20⟩)] "alice" ⟨"S1", 20⟩ true []
    oracleHappy (by decide)).1 rfl

/-- C6: in `Connect`, a conflict ("already running") from `ContainerStart`
behaves exactly like a successful start; any other start failure is returned
as the start error with the registry — hence the user's active session
count — unchanged. -/
theorem C6_start_conflict_ok (reg : List (String × mapValue)) (u : UserName)
    (c : containerInfo) (isTty : Bool) (winCh : List Window) (o : connOracle)
    (h : lookupReg reg u = some (.info c)) (hlt : c.manageLen < 20) :
    (o.startRes = .err →
      Connect reg u isTty winCh o = ⟨.err .startContainer, reg, [.start c.id], [], []⟩) ∧
    Connect reg u isTty winCh { o with startRes := .conflict }
      = Connect reg u isTty winCh { o with startRes := .ok } := by
  have h20 : ¬ 20 ≤ c.manageLen := Nat.not_le.mpr hlt
  constructor
  · intro hs
    unfold Connect
    rw [h]
    simp [h20, hs]
  · unfold Connect
    rw [h]
    simp [h20, finishConn_startRes]

/-- C6 witness: a failing start for `alice` surfaces the start error and
leaves the record untouched. -/
theorem C6_start_conflict_ok_witness :
    Connect [("alice", .info ⟨"S1", 0⟩)] "alice" false []
        { oracleHappy with startRes := .err }
      = ⟨.err .startContainer, [("alice", .info ⟨"S1", 0⟩)], [.start "S1"], [], []⟩ :=
  (C6_start_conflict_ok [("alice", .info ⟨"S1", 0⟩)] "alice" ⟨"S1", 0⟩ false []
    { oracleHappy with startRes := .err } (by decide) (by decide)).1 rfl

/-- C8: once a session passes lookup, capacity, start, exec-create and
attach, the overall result of `Connect` is decided solely by the output-copy
task: success iff the output copy succeeds, the stream-copy error otherwise;
the result is independent of the stdin-copy outcome (fire-and-forget), and
the stdin task always half-closes the stream's write side after its copy. -/
theorem C8_output_copy_determines (reg : List (String × mapValue)) (u : UserName)
    (isTty : Bool) (winCh : List Window) (o : connOracle) (c : containerInfo)
    (h : lookupReg reg u = some (.info c)) (hlt : c.manageLen < 20)
    (hs : o.startRes = .ok) (hec : o.execCreateOk = true) (hat : o.attachOk = true)
    (hstop : o.stopOk = true) :
    ((Connect reg u isTty winCh o).outcome = .ok ↔ o.outputCopyOk = true) ∧
    (o.outputCopyOk = false → (Connect reg u isTty winCh o).outcome = .err .stdout) ∧
    (∀ b b', Connect reg u isTty winCh { o with stdinCopyOk := b }
        = Connect reg u isTty winCh { o with stdinCopyOk := b' }) ∧
    (Connect reg u isTty winCh o).stdinOps = [.copyStdin, .closeWrite] := by
  have h20 : ¬ 20 ≤ c.manageLen := Nat.not_le.mpr hlt
  refine ⟨?_, ?_, ?_, ?_⟩
  · unfold Connect
    rw [h]
    cases hoc : o.outputCopyOk <;>
      simp [h20, hs, hec, hat, hoc, finishConn_outcome_eq, releaseDefer_fatal, hstop]
  · intro hoc
    unfold Connect
    rw [h]
    simp [h20, hs, hec, hat, hoc, finishConn_outcome_eq, releaseDefer_fatal, hstop]
  · intro b b'
    unfold Connect
    rw [h]
    simp [h20, hs, hec, hat]
    exact finishConn_oracle_congr _ _ _ _ _ _ _ _ _ rfl
  · unfold Connect
    rw [h]
    simp [h20, hs, hec, hat, finishConn_stdinOps]

/-- C8 witness: a fully successful non-interactive session for `alice`. -/
theorem C8_output_copy_determines_witness :
    (Connect [("alice", mapValue.info ⟨"S1", 0⟩)] "alice" false [] oracleHappy).outcome
      = connOutcome.ok := by
  have h := C8_output_copy_determines [("alice", .info ⟨"S1", 0⟩)] "alice" false []
    oracleHappy ⟨"S1", 0⟩ (by decide) (by decide) rfl rfl rfl rfl
  exact h.1.mpr rfl

/-- C9: the resize-forwarding task issues exactly one resize request per
consumed event, in order, until the event sequence closes or a forward
fails; a forwarding failure never changes the session's outcome; for the
sequence that emits one window then closes, exactly one request is issued
and the session completes successfully. -/
theorem C9_resize_forwarding (f g : Window → Bool) (wins pre post : List Window)
    (w : Window) (reg : List (String × mapValue)) (u : UserName)
    (winCh : List Window) (o : connOracle) (c : containerInfo)
    (hall : ∀ x ∈ wins, f x = true) (hpre : ∀ x ∈ pre, f x = true) (hw : f w = false)
    (h : lookupReg reg u = some (.info c)) (hlt : c.manageLen < 20)
    (hs : o.startRes = .ok) (hec : o.execCreateOk = true) (hat : o.attachOk = true)
    (hoc : o.outputCopyOk = true) (hstop : o.stopOk = true)
    (hrz : o.resizeOk = fun _ => true) :
    resizeTask f wins = wins ∧
    resizeTask f (pre ++ w :: post) = pre ++ [w] ∧
    (Connect reg u true winCh { o with resizeOk := g }).outcome
      = (Connect reg u true winCh o).outcome ∧
    (Connect reg u true [⟨80, 24⟩] o).resizeReqs = [⟨80, 24⟩] ∧
    (Connect reg u true [⟨80, 24⟩] o).outcome = .ok := by
  have h20 : ¬ 20 ≤ c.manageLen := Nat.not_le.mpr hlt
  refine ⟨resizeTask_all f wins hall, resizeTask_fail f pre post w hpre hw, ?_, ?_, ?_⟩
  · unfold Connect
    rw [h]
    simp [h20, hs, hec, hat, finishConn_outcome_eq, releaseDefer_fatal]
  · unfold Connect
    rw [h]
    simp [h20, hs, hec, hat, finishConn_resizeReqs, hrz, resizeTask]
  · unfold Connect
    rw [h]
    simp [h20, hs, hec, hat, hoc, finishConn_outcome_eq, releaseDefer_fatal, hstop]

/-- C9 witness: `bob`'s session with a single `{80,24}` resize event. -/
theorem C9_resize_forwarding_witness :
    (Connect [("bob", mapValue.info ⟨"S2", 0⟩)] "bob" true [⟨80, 24⟩] oracleHappy).resizeReqs
        = [⟨80, 24⟩] ∧
    (Connect [("bob", mapValue.info ⟨"S2", 0⟩)] "bob" true [⟨80, 24⟩] oracleHappy).outcome
        = connOutcome.ok := by
  have h := C9_resize_forwarding (fun x => decide (x.Height = 80)) (fun _ => true)
    [⟨80, 24⟩] [] [] ⟨0, 0⟩
    [("bob", .info ⟨"S2", 0⟩)] "bob" [] oracleHappy ⟨"S2", 0⟩
    (by decide) (by intro x hx; cases hx) (by decide)
    (by decide) (by decide) rfl rfl rfl rfl rfl rfl
  exact ⟨h.2.2.2.1, h.2.2.2.2⟩

/-- C10: when every value in the registry was stored by `Create` (so is a
`containerInfo` record), the type-assertion failure branch of `Connect` is
unreachable: `Connect` never returns the parse error, and it returns the
absent-record load error exactly when the user has no record; `Create` only
ever stores `containerInfo` records, preserving the invariant. -/
theorem C10_parse_unreachable (reg : List (String × mapValue)) (u : UserName)
    (isTty : Bool) (winCh : List Window) (o : connOracle)
    (hwf : wellFormedReg reg) :
    (Connect reg u isTty winCh o).outcome ≠ .err .parseContainerInfo ∧
    ((Connect reg u isTty winCh o).outcome = .err .loadContainerInfo ↔
      lookupReg reg u = none) ∧
    (∀ rt u', wellFormedReg (Create reg rt u').2.1) := by
  cases hl : lookupReg reg u with
  | none =>
    refine ⟨?_, ?_, fun rt u' => Create_wf reg rt u' hwf⟩
    · unfold Connect
      rw [hl]
      simp
    · unfold Connect
      rw [hl]
      simp
  | some v =>
    obtain ⟨c, hc⟩ := hwf (u, v) (lookupReg_mem reg u v hl)
    simp only at hc
    subst hc
    refine ⟨?_, ?_, fun rt u' => Create_wf reg rt u' hwf⟩
    · exact Connect_info_outcome_ne reg u isTty winCh o c hl .parseContainerInfo
        ⟨by decide, by decide, by decide, by decide, by decide⟩
    · constructor
      · intro hcontra
        exact absurd hcontra
          (Connect_info_outcome_ne reg u isTty winCh o c hl .loadContainerInfo
            ⟨by decide, by decide, by decide, by decide, by decide⟩)
      · intro hcontra
        exact Option.noConfusion hcontra

/-- C10 witness: with `alice` registered the parse error is impossible and
the load error is equivalent to having no record. -/
theorem C10_parse_unreachable_witness :
    (Connect [("alice", mapValue.info ⟨"S1", 0⟩)] "alice" false [] oracleHappy).outcome
        ≠ connOutcome.err .parseContainerInfo := by
  have h := C10_parse_unreachable [("alice", .info ⟨"S1", 0⟩)] "alice" false []
    oracleHappy (by intro p hp; simp at hp; exact ⟨⟨"S1", 0⟩, by rw [hp]⟩)
  exact h.1

/-- One of the two demultiplexed output streams of a non-interactive
session. -/
inductive StdStream where
  | stdout
  | stderr
deriving DecidableEq

/-- Modelled from the spec: the stream-selector byte of the demultiplexing
frame header (§6: "byte 0: stream selector, 0 = stdout, 1 = stderr").  The
encoder/decoder pair used at workspace_impl.go:174 lives in the external
library `github.com/docker/docker/pkg/stdcopy`, not in this repository. -/
def streamByte : StdStream → Nat
  | .stdout => 0
  | .stderr => 1

/-- Inverse of `streamByte`: classify a header selector byte. -/
def byteStream (b : Nat) : Option StdStream :=
  if b = 0 then some .stdout else if b = 1 then some .stderr else none

/-- Modelled from the spec: the 4-byte big-endian encoding of the payload
length (header bytes 4-7); lengths must fit in 32 bits. -/
def be32 (n : Nat) : List Nat :=
  [n / 16777216 % 256, n / 65536 % 256, n / 256 % 256, n % 256]

/-- Value of a big-endian 4-byte length field. -/
def readBe32 (b0 b1 b2 b3 : Nat) : Nat :=
  ((b0 * 256 + b1) * 256 + b2) * 256 + b3

/-- Modelled from the spec: one frame — an 8-byte header (stream selector,
three reserved zero bytes, big-endian payload length) followed by exactly
that many payload bytes. -/
def encodeFrame (s : StdStream) (payload : List Nat) : List Nat :=
  streamByte s :: 0 :: 0 :: 0 :: (be32 payload.length ++ payload)

/-- A sequence of (stream, payload) writes encoded as consecutive frames. -/
def encodeFrames : List (StdStream × List Nat) → List Nat
  | [] => []
  | (s, p) :: rest => encodeFrame s p ++ encodeFrames rest

/-- Modelled from the spec: the decoding loop of `stdcopy.StdCopy`: read an
8-byte header, then exactly the announced number of payload bytes, dispatch
the payload to the selected stream, and repeat until the input ends.  The
fuel argument only bounds the number of frames (each frame consumes one unit)
so that the recursion is structural. -/
def decodeLoop : Nat → List Nat → Option (List (StdStream × List Nat))
  | _, [] => some []
  | 0, _ :: _ => none
  | fuel + 1, t :: _ :: _ :: _ :: b0 :: b1 :: b2 :: b3 :: rest =>
    if readBe32 b0 b1 b2 b3 ≤ rest.length then
      match byteStream t with
      | none => none
      | some s =>
        match decodeLoop fuel (rest.drop (readBe32 b0 b1 b2 b3)) with
        | none => none
        | some frames => some ((s, rest.take (readBe32 b0 b1 b2 b3)) :: frames)
    else none
  | _ + 1, _ => none

/-- Decode a byte stream into its sequence of (stream, payload) writes;
a byte stream of length `n` holds at most `n` frames, so `n` is enough
fuel. -/
def decodeFrames (l : List Nat) : Option (List (StdStream × List Nat)) :=
  decodeLoop l.length l

theorem readBe32_be32 (n : Nat) (h : n < 4294967296) :
    readBe32 (n / 16777216 % 256) (n / 65536 % 256) (n / 256 % 256) (n % 256) = n := by
  simp only [readBe32]
  omega

theorem byteStream_streamByte (s : StdStream) : byteStream (streamByte s) = some s := by
  cases s <;> rfl

theorem encodeFrames_length_ge (ws : List (StdStream × List Nat)) :
    ws.length ≤ (encodeFrames ws).length := by
  induction ws with
  | nil => simp [encodeFrames]
  | cons hd tl ih =>
    obtain ⟨s, p⟩ := hd
    simp only [encodeFrames, encodeFrame, be32, List.length_append, List.length_cons]
    omega

theorem decodeLoop_encodeFrames (ws : List (StdStream × List Nat)) (fuel : Nat)
    (hf : ws.length ≤ fuel) (h : ∀ p ∈ ws, p.2.length < 4294967296) :
    decodeLoop fuel (encodeFrames ws) = some ws := by
  induction ws generalizing fuel with
  | nil => cases fuel <;> rfl
  | cons hd tl ih =>
    obtain ⟨fuel, rfl⟩ : ∃ f, fuel = f + 1 :=
      ⟨fuel - 1, by simp at hf; omega⟩
    obtain ⟨s, p⟩ := hd
    have hp : p.length < 4294967296 := h (s, p) (List.mem_cons_self _ _)
    have htl : ∀ q ∈ tl, q.2.length < 4294967296 :=
      fun q hq => h q (List.mem_cons_of_mem _ hq)
    have hlen := readBe32_be32 p.length hp
    show decodeLoop (fuel + 1) (encodeFrame s p ++ encodeFrames tl) = _
    simp only [encodeFrame, be32, List.append_eq, List.cons_append, List.append_assoc,
      List.nil_append, decodeLoop]
    rw [hlen, byteStream_streamByte]
    have hle : p.length ≤ (p ++ encodeFrames tl).length := by
      simp [List.length_append]
    rw [if_pos hle]
    have hdrop : (p ++ encodeFrames tl).drop p.length = encodeFrames tl :=
      List.drop_left _ _
    have htake : (p ++ encodeFrames tl).take p.length = p :=
      List.take_left _ _
    rw [hdrop, htake, ih fuel (by simp at hf; omega) htl]

/-- C7: round-trip of the non-interactive demultiplexing format: encoding
any finite sequence of (stream, payload) writes as 8-byte-header frames and
decoding the resulting byte stream reproduces the original sequence of
(stream, payload) pairs exactly — zero-length payloads included, relative
frame order preserved. -/
theorem C7_frame_roundtrip (ws : List (StdStream × List Nat))
    (h : ∀ p ∈ ws, p.2.length < 4294967296) :
    decodeFrames (encodeFrames ws) = some ws :=
  decodeLoop_encodeFrames ws (encodeFrames ws).length (encodeFrames_length_ge ws) h

/-- C7 witness: a concrete write sequence with an empty stderr payload and an
empty stdout payload round-trips. -/
theorem C7_frame_roundtrip_witness :
    decodeFrames (encodeFrames
        [(.stdout, [104, 105]), (.stderr, []), (.stdout, []), (.stderr, [0, 255])])
      = some [(.stdout, [104, 105]), (.stderr, []), (.stdout, []), (.stderr, [0, 255])] :=
  C7_frame_roundtrip
    [(.stdout, [104, 105]), (.stderr, []), (.stdout, []), (.stderr, [0, 255])]
    (by decide)

/-- Shared state of `N` concurrent sessions of one user running the
acquire/release skeleton of `Connect` (workspace_impl.go:121-139): the
current length of the user's buffered `manageChan` (capacity 20), whether
the container is running, the program counter of each session, and how many
actual stopped→running transitions (`starts`) and `ContainerStop` calls
(`stops`) have happened. -/
structure schedState where
  len : Nat
  running : Bool
  pcs : List Nat
  starts : Nat
  stops : Nat
deriving DecidableEq

/-- One atomic step of session `i`, following the statement granularity of
the Go code.  Program counters: 0 = the `len(manageChan) >= 20` capacity
check (line 121); 1 = `ContainerStart` (line 125, a conflict when already
running is success and no transition); 2 = the channel send acquiring a slot
(line 129, blocks while the buffer is full); 3 = the deferred channel
receive releasing the slot (line 131); 4 = the `len(manageChan) == 0` check
and, if it reads zero, the `ContainerStop` call (lines 132-134, assumed to
succeed); 5 = done. -/
def stepSession (s : schedState) (i : Nat) : schedState :=
  match s.pcs[i]? with
  | none => s
  | some pc =>
    if pc = 0 then
      if 20 ≤ s.len then { s with pcs := s.pcs.set i 5 }
      else { s with pcs := s.pcs.set i 1 }
    else if pc = 1 then
      if s.running then { s with pcs := s.pcs.set i 2 }
      else { s with running := true, starts := s.starts + 1, pcs := s.pcs.set i 2 }
    else if pc = 2 then
      if s.len < 20 then { s with len := s.len + 1, pcs := s.pcs.set i 3 }
      else s
    else if pc = 3 then
      { s with len := s.len - 1, pcs := s.pcs.set i 4 }
    else if pc = 4 then
      if s.len = 0 then
        { s with stops := s.stops + 1, running := false, pcs := s.pcs.set i 5 }
      else { s with pcs := s.pcs.set i 5 }
    else s

/-- Run the sessions under a schedule: the list of session indices chosen by
the scheduler, one per atomic step. -/
def runSched (s : schedState) : List Nat → schedState
  | [] => s
  | i :: rest => runSched (stepSession s i) rest

/-- Initial state for `n` concurrent `Connect` calls: empty channel, sandbox
not running, every session at its first statement. -/
def initSched (n : Nat) : schedState :=
  ⟨0, false, List.replicate n 0, 0, 0⟩

/-- The successive values of the session counter (channel length) along a
schedule, including the initial and final values. -/
def lenTrace (s : schedState) : List Nat → List Nat
  | [] => [s.len]
  | i :: rest => s.len :: lenTrace (stepSession s i) rest

/-- Number of 1→0 edges (drains) in a counter trace. -/
def drainEdges : List Nat → Nat
  | 1 :: 0 :: rest => 1 + drainEdges (0 :: rest)
  | _ :: rest => drainEdges rest
  | [] => 0

/-- The interleaving of two complete `Connect` calls in which both sessions
release their slot (channel receives at line 131) before either evaluates
`len(manageChan) == 0` at line 132: both observe length 0. -/
def doubleStopSched : List Nat := [0, 0, 0, 1, 1, 1, 0, 1, 0, 1]

/-- C1: refuted by the known release/length-check race.  Under the schedule
in which two concurrent sessions of one user both decrement `manageChan`
before either inspects its length, both sessions observe `len == 0` and both
call `ContainerStop`: the run completes (both sessions at pc 5, counter back
to 0), the counter crossed the 1→0 edge exactly once, the sandbox
transitioned to running exactly once — yet two stop calls were issued, not
the exactly-one the claim requires. -/
theorem C1_double_stop_on_drain :
    (runSched (initSched 2) doubleStopSched).stops = 2 ∧
    drainEdges (lenTrace (initSched 2) doubleStopSched) = 1 ∧
    (runSched (initSched 2) doubleStopSched).starts = 1 ∧
    (runSched (initSched 2) doubleStopSched).len = 0 ∧
    (runSched (initSched 2) doubleStopSched).pcs = [5, 5] := by decide

end Webshell
